import Mathlib

/-!
# Verification of the family-consumables backend

Shallow embedding of the consumables inventory server (`src/server.js`,
together with the two earlier prototype servers kept in the repository,
here called `part_000` and `part_001`).

Modelling conventions:
* JavaScript numbers are modelled as rationals (`ℚ`); timestamps (JS `Date`
  values) as rationals counting milliseconds since the epoch, so that
  `currentDate - prevDate` is ordinary subtraction, exactly as the code
  subtracts two `Date` objects.
* A nullable number field is `Option ℚ`.
* `item.lastUpdated` is always present (the schema gives it a default and
  every write path sets it), and a JS `Date` object is always truthy, so the
  `item.lastUpdated || now` fallback in the source never yields `now`; we
  model `lastUpdated` as a total field.
* Mongoose documents become a plain structure; `history.push` becomes list
  append at the end, and `history[history.length - 1]` becomes `getLast?`.
-/

namespace Consumables

/-- One history entry: `{change, timestamp}` (server.js lines 37-42). -/
structure HistoryEntry where
  change : ℚ
  timestamp : ℚ
deriving DecidableEq, Repr

/-- The Item document (server.js lines 29-45). -/
structure Item where
  name : String
  category : String
  quantity : ℚ
  lastUpdated : ℚ
  consumptionRate : ℚ
  estimatedDaysLeft : Option ℚ
  history : List HistoryEntry
deriving DecidableEq, Repr

/-- `1000 * 60 * 60 * 24`, the `msPerDay` constant of `calcDaysBetween`. -/
def msPerDay : ℚ := 1000 * 60 * 60 * 24

/-- `calcDaysBetween(prevDate, currentDate)` (server.js lines 50-53):
`Math.max((currentDate - prevDate) / msPerDay, 0)`, clamping a negative
difference to 0. -/
def calcDaysBetween (prevDate currentDate : ℚ) : ℚ :=
  max ((currentDate - prevDate) / msPerDay) 0

/-- The reference timestamp `prev` used by `computeRateAndEtaAfterDecrease`
(server.js lines 60-62): the timestamp of the last history entry if the
history is nonempty, else `lastUpdated` (the `|| now` fallback is dead code
because a `Date` object is truthy). -/
def prevTimestamp (item : Item) : ℚ :=
  match item.history.getLast? with
  | some e => e.timestamp
  | none => item.lastUpdated

/-- `daysElapsed` after the floor-to-one-day step (server.js lines 64-68):
`calcDaysBetween(prev, now)` and then `if (daysElapsed < 1) daysElapsed = 1`. -/
def effectiveDaysElapsed (item : Item) (now : ℚ) : ℚ :=
  let d := calcDaysBetween (prevTimestamp item) now
  if d < 1 then 1 else d

/-- `computeRateAndEtaAfterDecrease(item, change, now)` (server.js lines
55-78). Returns the pair `(smoothedRate, eta)`:
`rate = |change| / daysElapsed`;
`smoothedRate = consumptionRate > 0 ? consumptionRate*0.5 + rate*0.5 : rate`;
`eta = smoothedRate > 0 ? quantity / smoothedRate : null`. -/
def computeRateAndEtaAfterDecrease (item : Item) (change now : ℚ) : ℚ × Option ℚ :=
  let absConsumed := |change|
  let daysElapsed := effectiveDaysElapsed item now
  let rate := absConsumed / daysElapsed
  let smoothedRate :=
    if 0 < item.consumptionRate then item.consumptionRate * (1/2) + rate * (1/2) else rate
  let eta := if 0 < smoothedRate then some (item.quantity / smoothedRate) else none
  (smoothedRate, eta)

/-- The three bookkeeping mutations of the `PUT /items/:id/quantity` handler
(server.js lines 242-244), performed before the rate/ETA branch:
`item.quantity = Math.max(item.quantity + change, 0)`,
`item.lastUpdated = now`, `item.history.push({change, timestamp: now})`. -/
def bookkeep (item : Item) (change now : ℚ) : Item :=
  { item with
      quantity := max (item.quantity + change) 0
      lastUpdated := now
      history := item.history ++ [{ change := change, timestamp := now }] }

/-- The state change performed by a successful `PUT /items/:id/quantity`
call (server.js lines 242-258): bookkeeping, then — only when `change < 0` —
the rate/ETA update from `computeRateAndEtaAfterDecrease`; otherwise the
rate is kept and the ETA is recomputed from the kept rate. -/
def applyQuantityChange (item : Item) (change now : ℚ) : Item :=
  let item1 := bookkeep item change now
  if change < 0 then
    let re := computeRateAndEtaAfterDecrease item1 change now
    { item1 with consumptionRate := re.1, estimatedDaysLeft := re.2 }
  else
    { item1 with
        estimatedDaysLeft :=
          if 0 < item1.consumptionRate then some (item1.quantity / item1.consumptionRate)
          else none }

/-- The document created by a successful `POST /items` call (server.js lines
174-182): trimmed name/category, quantity clamped at 0, `consumptionRate = 0`,
`estimatedDaysLeft = null`, empty history. -/
def createItem (name : String) (quantity : ℚ) (category : String) (now : ℚ) : Item :=
  { name := name.trim
    category := category.trim
    quantity := max quantity 0
    lastUpdated := now
    consumptionRate := 0
    estimatedDaysLeft := none
    history := [] }

/-- The state change performed by a successful metadata `PUT /items/:id` call
(server.js lines 192-209): optional trimmed name/category update and a
`lastUpdated` bump; quantity, rate, ETA and history are untouched. -/
def applyMetadataEdit (item : Item) (newName newCategory : Option String) (now : ℚ) : Item :=
  { item with
      name := (newName.map String.trim).getD item.name
      category := (newCategory.map String.trim).getD item.category
      lastUpdated := now }

/-- The ETA filter predicate of `sendLineNotification` (server.js lines
95-97): `estimatedDaysLeft != null && estimatedDaysLeft <= 3`. -/
def etaDue (i : Item) : Bool :=
  match i.estimatedDaysLeft with
  | none => false
  | some d => decide (d ≤ 3)

/-- The on-demand notification selector inside `sendLineNotification`
(server.js lines 95-100): filter on `etaDue`, then — when the `category`
argument is truthy (a supplied, non-empty string) — a further filter on
strict category equality. `none` models the JS `null`/`undefined` argument;
`some ""` is falsy in JS and therefore also skips the category filter. -/
def notifyTargets (items : List Item) (category : Option String) : List Item :=
  let targets := items.filter etaDue
  match category with
  | none => targets
  | some c => if c = "" then targets else targets.filter (fun i => i.category == c)

/-- Outcome of the one outbound LINE push call (`axios.post`). -/
inductive Delivery where
  | delivered
  | failed (msg : String)
deriving DecidableEq, Repr

/-- `sendLineNotification(items, category)` (server.js lines 88-126),
abstracted to its observable effect: the number of outbound push attempts
made, and how the function terminates (`Except.ok` = returns normally,
`Except.error` = throws to the caller). With LINE env unset it returns at
once; with an empty selected set it returns before the push; otherwise it
makes exactly one push attempt whose failure is caught inside the function
(`try/catch` with a `console.error`), so the function never throws. -/
def sendLineNotification (envSet : Bool) (items : List Item)
    (category : Option String) (push : Delivery) : Nat × Except String Unit :=
  if !envSet then (0, Except.ok ())
  else if (notifyTargets items category).isEmpty then (0, Except.ok ())
  else
    match push with
    | Delivery.delivered => (1, Except.ok ())
    | Delivery.failed _ => (1, Except.ok ())

/-- The `POST /notify` handler (server.js lines 269-279), given a successful
store read: awaits `sendLineNotification` and answers `{ok:true}` with
status 200; had the awaited call thrown, the `catch` would answer 500 with
an error body. Result: (push attempts, HTTP status, body is `{ok:true}`). -/
def postNotify (envSet : Bool) (items : List Item)
    (category : Option String) (push : Delivery) : Nat × Nat × Bool :=
  match sendLineNotification envSet items category push with
  | (n, Except.ok _) => (n, 200, true)
  | (n, Except.error _) => (n, 500, false)

/-- The category restriction of the `GET /items` handlers (server.js line
150 and part_001 lines 219-221): `const filter = category ? {category} : {}`;
a truthy (supplied, non-empty) category means an exact-match filter. -/
def categoryFiltered (items : List Item) (category : Option String) : List Item :=
  match category with
  | none => items
  | some c => if c = "" then items else items.filter (fun i => i.category == c)

/-- Sort key used by the ETA-variant `GET /items` comparator
`(a, b) => a.estimatedDaysLeft - b.estimatedDaysLeft` (part_001 line 230);
it is only ever applied to items whose `estimatedDaysLeft` is non-null. -/
def etaKey (i : Item) : ℚ := i.estimatedDaysLeft.getD 0

/-- The order the ETA-variant handler sorts by: ascending `etaKey`. -/
def etaLe (a b : Item) : Prop := etaKey a ≤ etaKey b

instance : DecidableRel etaLe := fun a b =>
  inferInstanceAs (Decidable (etaKey a ≤ etaKey b))

instance : IsTotal Item etaLe := ⟨fun a b => le_total (etaKey a) (etaKey b)⟩

instance : IsTrans Item etaLe := ⟨fun _ _ _ h1 h2 => le_trans h1 h2⟩

/-- The ETA-variant `GET /items` handler (part_001 lines 217-237): category
filter, partition into `noEta` (null `estimatedDaysLeft`) and `withEta`
(the rest) preserving order, sort `withEta` ascending by ETA, and answer
`withEta ++ noEta`. The JS `Array.prototype.sort` (stable, by the numeric
comparator) is modelled by insertion sort on `etaLe`. -/
def getItemsEtaVariant (items : List Item) (category : Option String) : List Item :=
  let filtered := categoryFiltered items category
  let noEta := filtered.filter (fun i => i.estimatedDaysLeft.isNone)
  let withEta := filtered.filter (fun i => !i.estimatedDaysLeft.isNone)
  List.insertionSort etaLe withEta ++ noEta

/-- The fixed text the scheduled job pushes every day at 17:00. -/
def scheduledDailyMessage : String := "⏰ 毎日17:00の定期通知です"

/-- The scheduled daily job (part_000 lines 68-71): the `cron.schedule`
callback logs and pushes the one fixed text `scheduledDailyMessage` via
`sendLine`. It performs no store query and applies no predicate to any item,
so the set of items it selects is empty for every inventory state. Result:
(selected items, pushed message). -/
def scheduledDailyJob (_items : List Item) : List Item × String :=
  ([], scheduledDailyMessage)

/-- A concrete item used to instantiate witness theorems. -/
def sampleItem : Item :=
  { name := "milk"
    category := "food"
    quantity := 10
    lastUpdated := 0
    consumptionRate := 0
    estimatedDaysLeft := none
    history := [] }

/-! ## Helper lemmas -/

lemma one_le_effectiveDaysElapsed (item : Item) (now : ℚ) :
    1 ≤ effectiveDaysElapsed item now := by
  by_cases h : calcDaysBetween (prevTimestamp item) now < 1
  · simp [effectiveDaysElapsed, h]
  · simp [effectiveDaysElapsed, h]
    exact not_lt.mp h

lemma effectiveDaysElapsed_pos (item : Item) (now : ℚ) :
    0 < effectiveDaysElapsed item now :=
  lt_of_lt_of_le one_pos (one_le_effectiveDaysElapsed item now)

lemma instantRate_pos (item : Item) (change now : ℚ) (h : change ≠ 0) :
    0 < |change| / effectiveDaysElapsed item now :=
  div_pos (abs_pos.mpr h) (effectiveDaysElapsed_pos item now)

lemma computeRate_eq (item : Item) (change now : ℚ) (hr : 0 ≤ item.consumptionRate) :
    (computeRateAndEtaAfterDecrease item change now).1 =
      (if item.consumptionRate = 0
       then |change| / effectiveDaysElapsed item now
       else (1/2) * item.consumptionRate
            + (1/2) * (|change| / effectiveDaysElapsed item now)) := by
  simp only [computeRateAndEtaAfterDecrease]
  rcases eq_or_lt_of_le hr with hzero | hpos
  · rw [if_neg (not_lt.mpr (le_of_eq hzero.symm)), if_pos hzero.symm]
  · rw [if_pos hpos, if_neg (ne_of_gt hpos)]
    ring

lemma computeRate_pos (item : Item) (change now : ℚ) (hc : change ≠ 0) :
    0 < (computeRateAndEtaAfterDecrease item change now).1 := by
  have hrate := instantRate_pos item change now hc
  simp only [computeRateAndEtaAfterDecrease]
  by_cases hpos : 0 < item.consumptionRate
  · rw [if_pos hpos]
    linarith
  · rw [if_neg hpos]
    exact hrate

lemma computeEta_eq (item : Item) (change now : ℚ)
    (h : 0 < (computeRateAndEtaAfterDecrease item change now).1) :
    (computeRateAndEtaAfterDecrease item change now).2 =
      some (item.quantity / (computeRateAndEtaAfterDecrease item change now).1) := by
  simp only [computeRateAndEtaAfterDecrease] at h ⊢
  rw [if_pos h]

lemma computeEta_none_of_rate_nonpos (item : Item) (change now : ℚ)
    (h : (computeRateAndEtaAfterDecrease item change now).1 ≤ 0) :
    (computeRateAndEtaAfterDecrease item change now).2 = none := by
  simp only [computeRateAndEtaAfterDecrease] at h ⊢
  rw [if_neg (not_lt.mpr h)]

lemma applyQuantityChange_rate_of_neg (item : Item) (change now : ℚ) (h : change < 0) :
    (applyQuantityChange item change now).consumptionRate =
      (computeRateAndEtaAfterDecrease (bookkeep item change now) change now).1 := by
  simp [applyQuantityChange, h]

lemma applyQuantityChange_eta_of_neg (item : Item) (change now : ℚ) (h : change < 0) :
    (applyQuantityChange item change now).estimatedDaysLeft =
      (computeRateAndEtaAfterDecrease (bookkeep item change now) change now).2 := by
  simp [applyQuantityChange, h]

lemma applyQuantityChange_rate_of_nonneg (item : Item) (change now : ℚ) (h : 0 ≤ change) :
    (applyQuantityChange item change now).consumptionRate = item.consumptionRate := by
  simp [applyQuantityChange, bookkeep, not_lt.mpr h]

lemma applyQuantityChange_eta_of_nonneg (item : Item) (change now : ℚ) (h : 0 ≤ change) :
    (applyQuantityChange item change now).estimatedDaysLeft =
      (if 0 < item.consumptionRate
       then some (max (item.quantity + change) 0 / item.consumptionRate)
       else none) := by
  simp [applyQuantityChange, bookkeep, not_lt.mpr h]

/-! ## Claims -/

/-- C2: for every decrease event the elapsed-days divisor lies in `[1, ∞)`:
a negative raw difference is clamped to 0 by `calcDaysBetween`, and any
value below one day is floored to exactly 1, so the rate division never
divides by zero or by a value below 1. -/
theorem C2_daysElapsed_at_least_one (item : Item) (change now prev : ℚ) :
    1 ≤ effectiveDaysElapsed (bookkeep item change now) now ∧
    1 ≤ effectiveDaysElapsed item now ∧
    (now - prev < 0 → calcDaysBetween prev now = 0) ∧
    (calcDaysBetween (prevTimestamp item) now < 1 → effectiveDaysElapsed item now = 1) := by
  refine ⟨one_le_effectiveDaysElapsed _ _, one_le_effectiveDaysElapsed _ _, ?_, ?_⟩
  · intro h
    unfold calcDaysBetween
    have hneg : (now - prev) / msPerDay < 0 :=
      div_neg_of_neg_of_pos h (by norm_num [msPerDay])
    exact max_eq_right (le_of_lt hneg)
  · intro h
    simp [effectiveDaysElapsed, h]

/-- Witness for C2 at concrete inputs. -/
theorem C2_witness :
    ((0 : ℚ) - 1 < 0 ∧ calcDaysBetween 1 0 = 0) ∧
    (calcDaysBetween (prevTimestamp sampleItem) 0 < 1 ∧
      effectiveDaysElapsed sampleItem 0 = 1) := by
  have h := C2_daysElapsed_at_least_one sampleItem (-2) 0 1
  have hlt : calcDaysBetween (prevTimestamp sampleItem) 0 < 1 := by
    norm_num [calcDaysBetween, prevTimestamp, sampleItem, msPerDay]
  exact ⟨⟨by norm_num, h.2.2.1 (by norm_num)⟩, hlt, h.2.2.2 hlt⟩

/-- C4: every quantity-change clamps the resulting quantity at 0 and
appends exactly one history entry at the end. -/
theorem C4_quantity_clamped_history_appended (item : Item) (change now : ℚ) :
    0 ≤ (applyQuantityChange item change now).quantity ∧
    (applyQuantityChange item change now).history.length = item.history.length + 1 ∧
    (applyQuantityChange item change now).history
      = item.history ++ [{ change := change, timestamp := now }] := by
  unfold applyQuantityChange bookkeep
  by_cases h : change < 0 <;> simp [h, le_max_right]

/-- C3: a quantity-change with `change ≥ 0` (including 0) leaves the
consumption rate unchanged and recomputes the ETA as the new quantity
divided by the rate when the rate is positive, else null. -/
theorem C3_increase_keeps_rate (item : Item) (change now : ℚ) (h : 0 ≤ change) :
    (applyQuantityChange item change now).consumptionRate = item.consumptionRate ∧
    (applyQuantityChange item change now).estimatedDaysLeft =
      (if 0 < item.consumptionRate
       then some (max (item.quantity + change) 0 / item.consumptionRate)
       else none) :=
  ⟨applyQuantityChange_rate_of_nonneg item change now h,
   applyQuantityChange_eta_of_nonneg item change now h⟩

/-- Witness for C3 at concrete inputs (`change = 0` exercising the guard). -/
theorem C3_witness :
    (0 : ℚ) ≤ 0 ∧
    (applyQuantityChange sampleItem 0 0).consumptionRate = sampleItem.consumptionRate ∧
    (applyQuantityChange sampleItem 0 0).estimatedDaysLeft =
      (if 0 < sampleItem.consumptionRate
       then some (max (sampleItem.quantity + 0) 0 / sampleItem.consumptionRate)
       else none) :=
  ⟨le_refl 0, (C3_increase_keeps_rate sampleItem 0 0 (le_refl 0)).1,
   (C3_increase_keeps_rate sampleItem 0 0 (le_refl 0)).2⟩

/-- C1: a quantity-change with `change < 0` sets the rate to the
instantaneous rate `|change| / daysElapsed` when the previous rate is 0 and
to the equally weighted blend of previous and instantaneous rate otherwise,
and sets the ETA to the already-decremented clamped quantity divided by the
smoothed rate. The previous rate is assumed non-negative, as it is for
every item reachable through the API (created at 0, decreases set it
positive, increases keep it). -/
theorem C1_decrease_rate_and_eta (item : Item) (change now : ℚ)
    (hneg : change < 0) (hr : 0 ≤ item.consumptionRate) :
    (applyQuantityChange item change now).consumptionRate =
      (if item.consumptionRate = 0
       then |change| / effectiveDaysElapsed (bookkeep item change now) now
       else (1/2) * item.consumptionRate
            + (1/2) * (|change| / effectiveDaysElapsed (bookkeep item change now) now)) ∧
    (applyQuantityChange item change now).estimatedDaysLeft =
      some (max (item.quantity + change) 0
            / (applyQuantityChange item change now).consumptionRate) := by
  have hbr : (bookkeep item change now).consumptionRate = item.consumptionRate := rfl
  have hbq : (bookkeep item change now).quantity = max (item.quantity + change) 0 := rfl
  have hrate := computeRate_eq (bookkeep item change now) change now (by rw [hbr]; exact hr)
  have hpos := computeRate_pos (bookkeep item change now) change now (ne_of_lt hneg)
  have heta := computeEta_eq (bookkeep item change now) change now hpos
  rw [applyQuantityChange_rate_of_neg item change now hneg,
    applyQuantityChange_eta_of_neg item change now hneg]
  constructor
  · rw [hrate, hbr]
  · rw [heta, hbq]

/-- Witness for C1 at concrete inputs. -/
theorem C1_witness :
    ((-2 : ℚ) < 0 ∧ (0 : ℚ) ≤ sampleItem.consumptionRate) ∧
    (applyQuantityChange sampleItem (-2) 0).consumptionRate =
      (if sampleItem.consumptionRate = 0
       then |(-2 : ℚ)| / effectiveDaysElapsed (bookkeep sampleItem (-2) 0) 0
       else (1/2) * sampleItem.consumptionRate
            + (1/2) * (|(-2 : ℚ)| / effectiveDaysElapsed (bookkeep sampleItem (-2) 0) 0)) ∧
    (applyQuantityChange sampleItem (-2) 0).estimatedDaysLeft =
      some (max (sampleItem.quantity + (-2)) 0
            / (applyQuantityChange sampleItem (-2) 0).consumptionRate) := by
  have h := C1_decrease_rate_and_eta sampleItem (-2) 0 (by norm_num)
    (by simp [sampleItem])
  exact ⟨⟨by norm_num, by simp [sampleItem]⟩, h.1, h.2⟩

/-- C10 (implicit): after every quantity-change with `change < 0` the
consumption rate is strictly positive and the ETA is non-null and
non-negative. No hypothesis on the prior rate is needed: the code blends
only when the prior rate is positive, and otherwise uses the positive
instantaneous rate directly. -/
theorem C10_decrease_rate_pos_eta_nonneg (item : Item) (change now : ℚ)
    (hneg : change < 0) :
    0 < (applyQuantityChange item change now).consumptionRate ∧
    ∃ d, (applyQuantityChange item change now).estimatedDaysLeft = some d ∧ 0 ≤ d := by
  have hpos := computeRate_pos (bookkeep item change now) change now (ne_of_lt hneg)
  have heta := computeEta_eq (bookkeep item change now) change now hpos
  rw [applyQuantityChange_rate_of_neg item change now hneg,
    applyQuantityChange_eta_of_neg item change now hneg]
  refine ⟨hpos, (bookkeep item change now).quantity
      / (computeRateAndEtaAfterDecrease (bookkeep item change now) change now).1,
    heta, div_nonneg ?_ (le_of_lt hpos)⟩
  exact le_max_right _ _

/-- Witness for C10 at concrete inputs. -/
theorem C10_witness :
    (-3 : ℚ) < 0 ∧
    (0 < (applyQuantityChange sampleItem (-3) 0).consumptionRate ∧
      ∃ d, (applyQuantityChange sampleItem (-3) 0).estimatedDaysLeft = some d ∧ 0 ≤ d) :=
  ⟨by norm_num, C10_decrease_rate_pos_eta_nonneg sampleItem (-3) 0 (by norm_num)⟩

/-- The spec invariant of C5: `estimatedDaysLeft` is null whenever
`consumptionRate` is 0. -/
def rateEtaInvariant (item : Item) : Prop :=
  item.consumptionRate = 0 → item.estimatedDaysLeft = none

/-- C5: the invariant `rateEtaInvariant` holds after item creation and is
preserved by every quantity-change (the decrease branch only stores a
non-null ETA together with a positive rate, the increase branch stores null
exactly when the kept rate is not positive) and by every metadata edit
(which touches neither field). -/
theorem C5_eta_null_when_rate_zero (n : String) (q : ℚ) (c : String) (t : ℚ)
    (item : Item) (change now : ℚ) (newName newCategory : Option String) (t2 : ℚ)
    (h : rateEtaInvariant item) :
    rateEtaInvariant (createItem n q c t) ∧
    rateEtaInvariant (applyQuantityChange item change now) ∧
    rateEtaInvariant (applyMetadataEdit item newName newCategory t2) := by
  refine ⟨fun _ => rfl, ?_, ?_⟩
  · intro hz
    by_cases hc : change < 0
    · rw [applyQuantityChange_eta_of_neg item change now hc]
      rw [applyQuantityChange_rate_of_neg item change now hc] at hz
      exact computeEta_none_of_rate_nonpos _ change now (le_of_eq hz)
    · have h0 : 0 ≤ change := not_lt.mp hc
      rw [applyQuantityChange_eta_of_nonneg item change now h0]
      rw [applyQuantityChange_rate_of_nonneg item change now h0] at hz
      rw [hz]
      simp
  · intro hz
    exact h hz

/-- Witness for C5 at concrete inputs. -/
theorem C5_witness :
    rateEtaInvariant sampleItem ∧
    (rateEtaInvariant (createItem "tea" 4 "food" 0) ∧
      rateEtaInvariant (applyQuantityChange sampleItem 2 0) ∧
      rateEtaInvariant (applyMetadataEdit sampleItem (some "oolong") none 1)) :=
  ⟨fun _ => rfl,
   C5_eta_null_when_rate_zero "tea" 4 "food" 0 sampleItem 2 0 (some "oolong") none 1
     (fun _ => rfl)⟩

lemma etaDue_iff (i : Item) :
    etaDue i = true ↔ ∃ d, i.estimatedDaysLeft = some d ∧ d ≤ 3 := by
  cases h : i.estimatedDaysLeft <;> simp [etaDue, h]

/-- C6: the on-demand selector picks exactly the items whose
`estimatedDaysLeft` is non-null and at most 3, intersected with exact
category equality when a (truthy, i.e. non-empty) category argument is
supplied; an item with null `estimatedDaysLeft` is never selected,
regardless of its quantity. -/
theorem C6_selector_membership (items : List Item) (i : Item) (cat : Option String)
    (hc : cat ≠ some "") :
    i ∈ notifyTargets items cat ↔
      i ∈ items ∧ (∃ d, i.estimatedDaysLeft = some d ∧ d ≤ 3) ∧
        ∀ c, cat = some c → i.category = c := by
  cases cat with
  | none =>
      simp [notifyTargets, List.mem_filter, etaDue_iff]
  | some c =>
      have hc' : ¬ c = "" := fun hcc => hc (by rw [hcc])
      simp only [notifyTargets, if_neg hc', List.mem_filter, etaDue_iff,
        beq_iff_eq, Option.some.injEq]
      constructor
      · rintro ⟨⟨hi, hd⟩, hcat⟩
        exact ⟨hi, hd, fun c2 hc2 => hc2 ▸ hcat⟩
      · rintro ⟨hi, hd, hcat⟩
        exact ⟨⟨hi, hd⟩, hcat c rfl⟩

/-- A concrete nearly-depleted item used by C6/C7 instantiations. -/
def dueItem : Item :=
  { name := "soap"
    category := "bath"
    quantity := 0
    lastUpdated := 0
    consumptionRate := 1
    estimatedDaysLeft := some 2
    history := [] }

/-- Witness for C6 at concrete inputs. -/
theorem C6_witness :
    (some "bath" : Option String) ≠ some "" ∧
    (dueItem ∈ notifyTargets [sampleItem, dueItem] (some "bath") ↔
      dueItem ∈ [sampleItem, dueItem] ∧
        (∃ d, dueItem.estimatedDaysLeft = some d ∧ d ≤ 3) ∧
        ∀ c, (some "bath" : Option String) = some c → dueItem.category = c) :=
  ⟨by simp,
   C6_selector_membership [sampleItem, dueItem] dueItem (some "bath") (by simp)⟩

/-- C7 counterexample: the claim says the scheduled daily job selects
exactly the items with `quantity ≤ 1`; on an inventory holding one item of
quantity 0 the job selects nothing while the claimed predicate selects that
item. -/
theorem C7_counterexample :
    (scheduledDailyJob [dueItem]).1 ≠
      List.filter (fun i => decide (i.quantity ≤ 1)) [dueItem] := by
  simp [scheduledDailyJob, dueItem]

/-- C7 amended: the scheduled daily job performs no item selection at all —
its callback pushes one fixed reminder text and never queries the store —
so its selected set is empty for every inventory state; it implements
neither the `quantity ≤ 1` predicate nor the on-demand ETA predicate. -/
theorem C7_scheduled_job_selects_nothing (items : List Item) :
    (scheduledDailyJob items).1 = [] ∧
    (scheduledDailyJob items).2 = scheduledDailyMessage :=
  ⟨rfl, rfl⟩

/-- C9: `POST /notify` answers status 200 with body `{ok:true}` whether or
not the outbound push fails; an empty selected set skips the delivery call
(zero push attempts), and delivery is attempted at most once (no retry).
The store read is assumed to succeed (a store failure is the 500 path of
the handler, outside this claim). -/
theorem C9_notify_always_ok (envSet : Bool) (items : List Item)
    (cat : Option String) (push : Delivery) :
    (postNotify envSet items cat push).2 = (200, true) ∧
    ((notifyTargets items cat).isEmpty = true →
      (postNotify envSet items cat push).1 = 0) ∧
    (postNotify envSet items cat push).1 ≤ 1 := by
  unfold postNotify sendLineNotification
  cases envSet <;> cases push <;>
    by_cases h : (notifyTargets items cat).isEmpty <;> simp [h]

/-- Witness for C9 at concrete inputs: empty store, failing delivery. -/
theorem C9_witness :
    (notifyTargets [] none).isEmpty = true ∧
    (postNotify true [] none (Delivery.failed "boom")).2 = (200, true) ∧
    (postNotify true [] none (Delivery.failed "boom")).1 = 0 ∧
    (postNotify true [] none (Delivery.failed "boom")).1 ≤ 1 := by
  have h := C9_notify_always_ok true [] none (Delivery.failed "boom")
  exact ⟨rfl, h.1, h.2.1 rfl, h.2.2⟩

lemma filter_partition_perm {α : Type} (p : α → Bool) (l : List α) :
    (l.filter (fun a => !p a) ++ l.filter p).Perm l := by
  induction l with
  | nil => simp
  | cons a l ih =>
    by_cases h : p a
    · simpa [List.filter_cons, h] using List.Perm.trans List.perm_middle (ih.cons a)
    · simpa [List.filter_cons, h] using ih.cons a

/-- C8: the ETA-variant `GET /items` answer is a permutation of the
category-matching items, split as a prefix of items with non-null
`estimatedDaysLeft` sorted ascending by ETA followed by exactly the items
with null `estimatedDaysLeft`. -/
theorem C8_getItems_eta_sorted (items : List Item) (cat : Option String)
    (hc : cat ≠ some "") :
    ∃ pre post,
      getItemsEtaVariant items cat = pre ++ post ∧
      (getItemsEtaVariant items cat).Perm
        (cat.elim items (fun c => items.filter (fun i => i.category == c))) ∧
      List.Sorted etaLe pre ∧
      (∀ i ∈ pre, i.estimatedDaysLeft ≠ none) ∧
      (∀ i ∈ post, i.estimatedDaysLeft = none) := by
  refine ⟨List.insertionSort etaLe
      ((categoryFiltered items cat).filter (fun i => !i.estimatedDaysLeft.isNone)),
    (categoryFiltered items cat).filter (fun i => i.estimatedDaysLeft.isNone),
    rfl, ?_, List.sorted_insertionSort etaLe _, ?_, ?_⟩
  · have h1 : (getItemsEtaVariant items cat).Perm (categoryFiltered items cat) := by
      unfold getItemsEtaVariant
      exact ((List.perm_insertionSort etaLe _).append_right _).trans
        (filter_partition_perm _ _)
    have h2 : categoryFiltered items cat =
        cat.elim items (fun c => items.filter (fun i => i.category == c)) := by
      cases cat with
      | none => rfl
      | some c =>
          have hc' : ¬ c = "" := fun hcc => hc (by rw [hcc])
          simp [categoryFiltered, hc']
    exact h2 ▸ h1
  · intro i hi
    have hmem : i ∈ (categoryFiltered items cat).filter
        (fun j => !j.estimatedDaysLeft.isNone) :=
      ((List.perm_insertionSort etaLe _).mem_iff).mp hi
    have hb := (List.mem_filter.mp hmem).2
    simpa [Option.isSome_iff_ne_none] using hb
  · intro i hi
    have hb := (List.mem_filter.mp hi).2
    simpa [Option.isNone_iff_eq_none] using hb

/-- Witness for C8 at concrete inputs. -/
theorem C8_witness :
    (some "bath" : Option String) ≠ some "" ∧
    (∃ pre post,
      getItemsEtaVariant [sampleItem, dueItem] (some "bath") = pre ++ post ∧
      (getItemsEtaVariant [sampleItem, dueItem] (some "bath")).Perm
        ((some "bath" : Option String).elim [sampleItem, dueItem]
          (fun c => [sampleItem, dueItem].filter (fun i => i.category == c))) ∧
      List.Sorted etaLe pre ∧
      (∀ i ∈ pre, i.estimatedDaysLeft ≠ none) ∧
      (∀ i ∈ post, i.estimatedDaysLeft = none)) :=
  ⟨by simp,
   C8_getItems_eta_sorted [sampleItem, dueItem] (some "bath") (by simp)⟩

end Consumables
